import Mathlib

/-!
Verification of the keno scoring engine (src/analyzer.py).

The engine is embedded shallowly: Python floats become rationals,
dicts keyed by the numbers 1..80 become functions applied along the
key list, and the one stateful ingredient of generate_advanced_predictions
(the process-wide random source used by random.sample) becomes two
explicit list arguments constrained by the predicate isSample, which
captures exactly what random.sample(range(1, 81), k) guarantees about
its output.  Draw records are reduced to their numbers field, and the
per-number statistics dict is a total function returning the pair
(hot_streak, cold_streak) with the .get defaults already folded in.
-/

namespace Keno

/-- Numbers field of one draw record (draw["numbers"] in the source). -/
abbrev Draw := List Nat

/-- Per-number streak statistics: for a number n, stats n is the pair
(hot_streak, cold_streak) obtained in the source as
stats.get(n, {}).get("hot_streak", 0) and .get("cold_streak", 0). -/
abbrev Stats := Nat → Nat × Nat

/-- Key list of every score dict built in the source: range(1, 81). -/
def kenoNumbers : List Nat := List.range' 1 80

/-- Output contract of random.sample(range(1, 81), k): a list of k
distinct numbers drawn from 1..80. -/
def isSample (k : Nat) (s : List Nat) : Prop :=
  s.length = k ∧ s.Nodup ∧ ∀ x ∈ s, x ∈ kenoNumbers

/-- Valid-shaped draw as the spec describes it: exactly 20 distinct
integers in [1, 80]. -/
def ValidDraw (d : Draw) : Prop :=
  d.length = 20 ∧ d.Nodup ∧ ∀ x ∈ d, x ∈ kenoNumbers

/-- Valid-shaped history: every draw record is valid. -/
def ValidHistory (draws : List Draw) : Prop := ∀ d ∈ draws, ValidDraw d

instance (k : Nat) (s : List Nat) : Decidable (isSample k s) := by
  unfold isSample
  infer_instance

instance (d : Draw) : Decidable (ValidDraw d) := by
  unfold ValidDraw
  infer_instance

instance (draws : List Draw) : Decidable (ValidHistory draws) := by
  unfold ValidHistory
  infer_instance

/-- Embedding of _calculate_frequency_scores together with the
.get(number, 0) read performed by the combiner: count of appearances of
n across all draws divided by the history length, 0.01 when empty. -/
def calculate_frequency_scores (draws : List Draw) (n : Nat) : ℚ :=
  let total_draws := draws.length
  let count : Nat := (draws.map (fun d => d.count n)).sum
  if 0 < total_draws then (count : ℚ) / (total_draws : ℚ) else 1/100

/-- Loop of _calculate_recency_scores: running index i against a fixed
history length N, accumulating weight 1.0 + (N - i) * 0.1 for every
occurrence of the number in the draw at position i. -/
def recencyRawAux (N : Nat) (i : Nat) (n : Nat) : List Draw → ℚ
  | [] => 0
  | d :: rest => (d.count n : ℚ) * (1 + ((N - i : Nat) : ℚ) * (1/10))
      + recencyRawAux N (i + 1) n rest

/-- Accumulated (pre-normalization) recency weight of the number n. -/
def recencyRaw (draws : List Draw) (n : Nat) : ℚ :=
  recencyRawAux draws.length 0 n draws

/-- Divisor max(scores.values()) if scores else 1 of
_calculate_recency_scores: the keys of the accumulated dict are exactly
the numbers occurring somewhere in the history. -/
def recencyMax (draws : List Draw) : ℚ :=
  match (draws.flatten.dedup).map (recencyRaw draws) with
  | [] => 1
  | x :: xs => xs.foldl max x

/-- Embedding of _calculate_recency_scores with the .get(number, 0) read
folded in: the normalized dict holds a value only for occurring numbers. -/
def calculate_recency_scores (draws : List Draw) (n : Nat) : ℚ :=
  if n ∈ draws.flatten then recencyRaw draws n / recencyMax draws else 0

/-- Embedding of _calculate_hot_cold_scores with the .get(number, 0)
read folded in: the empty dict returned for short histories reads as 0. -/
def calculate_hot_cold_scores (draws : List Draw) (n : Nat) : ℚ :=
  if draws.length < 10 then 0
  else
    let recent_count := max 5 (draws.length / 3)
    let recent_numbers := (draws.take recent_count).flatten
    let older_numbers := (draws.drop recent_count).flatten
    if n ∈ recent_numbers ∧ n ∉ older_numbers then 1
    else if n ∉ recent_numbers ∧ n ∈ older_numbers then 3/10
    else if n ∈ recent_numbers then 7/10
    else 1/10

/-- Result record of _analyze_draw_patterns. -/
structure DrawPatterns where
  endings : List Nat
  decades : List Nat
  low_high_balance : ℚ
  even_odd_balance : ℚ

/-- Embedding of _analyze_draw_patterns.  The list(set(...)) conversions
only affect duplicate bookkeeping, never membership, so the plain mapped
lists are kept; draw numbers are at least 1 at every call site that
matters for the claims, where the Nat subtraction in (n - 1) / 10 agrees
with the Python (n - 1) // 10. -/
def analyze_draw_patterns (numbers : List Nat) : DrawPatterns :=
  { endings := numbers.map (fun n => n % 10)
    decades := numbers.map (fun n => (n - 1) / 10)
    low_high_balance := ((numbers.filter (fun n => n ≤ 40)).length : ℚ) / numbers.length
    even_odd_balance := ((numbers.filter (fun n => n % 2 = 0)).length : ℚ) / numbers.length }

/-- Per-number body of _calculate_pattern_scores for a given most recent
draw: the four additive contributions capped at 1.0. -/
def pattern_score_for (numbers : List Nat) (m : Nat) : ℚ :=
  let patterns := analyze_draw_patterns numbers
  let s1 : ℚ := if m % 10 ∈ patterns.endings then 3/10 else 0
  let s2 : ℚ := if (m - 1) / 10 ∈ patterns.decades then 3/10 else 0
  let s3 : ℚ :=
    if m ≤ 40 ∧ 1/2 < patterns.low_high_balance then 1/5
    else if 40 < m ∧ patterns.low_high_balance < 1/2 then 1/5
    else 0
  let s4 : ℚ :=
    if m % 2 = 0 ∧ 1/2 < patterns.even_odd_balance then 1/5
    else if m % 2 = 1 ∧ patterns.even_odd_balance < 1/2 then 1/5
    else 0
  min (s1 + s2 + s3 + s4) 1

/-- Embedding of _calculate_pattern_scores with the .get(number, 0) read
folded in: empty dict for histories shorter than 3, else scores derived
from the most recent draw draws[0]. -/
def calculate_pattern_scores (draws : List Draw) (n : Nat) : ℚ :=
  if draws.length < 3 then 0
  else
    match draws with
    | [] => 0
    | last_draw :: _ => pattern_score_for last_draw n

/-- Embedding of _calculate_streak_scores for one number, reading the
injected stats mapping. -/
def calculate_streak_scores (stats : Stats) (n : Nat) : ℚ :=
  let hot_streak := (stats n).1
  let cold_streak := (stats n).2
  if 3 ≤ hot_streak then 4/5
  else if 2 ≤ hot_streak then 3/5
  else if 5 ≤ cold_streak then 9/10
  else if 3 ≤ cold_streak then 7/10
  else 1/2

/-- Loop body of calculate_advanced_probabilities building
combined_scores[number]: the weighted sum of the five factors floored at
0.001. -/
def combined_score (draws : List Draw) (stats : Stats) (n : Nat) : ℚ :=
  max (calculate_frequency_scores draws n * (25/100)
      + calculate_recency_scores draws n * (30/100)
      + calculate_hot_cold_scores draws n * (20/100)
      + calculate_pattern_scores draws n * (15/100)
      + calculate_streak_scores stats n * (10/100))
    (1/1000)

/-- Normalization divisor total = sum(combined_scores.values()). -/
def combined_total (draws : List Draw) (stats : Stats) : ℚ :=
  (kenoNumbers.map (combined_score draws stats)).sum

/-- Value of _get_default_probabilities at each number 1..80. -/
def get_default_probabilities (_n : Nat) : ℚ := 1/80

/-- Embedding of calculate_advanced_probabilities: the value the returned
dict assigns to the number n of 1..80. -/
def calculate_advanced_probabilities (draws : List Draw) (stats : Stats) (n : Nat) : ℚ :=
  if draws.length < 3 then get_default_probabilities n
  else combined_score draws stats n / combined_total draws stats

/-- Items of the probabilities dict in key order 1..80, as iterated by
probabilities.items() in generate_advanced_predictions. -/
def probability_items (draws : List Draw) (stats : Stats) : List (Nat × ℚ) :=
  kenoNumbers.map (fun n => (n, calculate_advanced_probabilities draws stats n))

/-- Comparison used by sorted(probabilities.items(), key=lambda x: x[1],
reverse=True): a may come no later than b exactly when the score of a is
at least the score of b.  Pythons sort is stable, which insertionSort
with this non-strict relation reproduces. -/
def scoreGE (a b : Nat × ℚ) : Prop := b.2 ≤ a.2

instance : DecidableRel scoreGE := fun a b => inferInstanceAs (Decidable (b.2 ≤ a.2))

instance : IsTotal (Nat × ℚ) scoreGE := ⟨fun a b => le_total b.2 a.2⟩

instance : IsTrans (Nat × ℚ) scoreGE := ⟨fun _ _ _ h1 h2 => le_trans h2 h1⟩

/-- Ranking computed twice (identically) in generate_advanced_predictions:
the probability items sorted by descending score, stably. -/
def sorted_probability_items (draws : List Draw) (stats : Stats) : List (Nat × ℚ) :=
  (probability_items draws stats).insertionSort scoreGE

/-- Comparison used by sorted(probabilities.values(), reverse=True) in
_calculate_confidence. -/
def ratGE (a b : ℚ) : Prop := b ≤ a

instance : DecidableRel ratGE := fun a b => inferInstanceAs (Decidable (b ≤ a))

/-- Embedding of _calculate_pattern_consistency: fraction of consecutive
draw pairs, among the first min(5, N - 1), whose ending sets coincide. -/
def calculate_pattern_consistency (draws : List Draw) : ℚ :=
  if draws.length < 5 then 1/2
  else
    let total_comparisons := min 5 (draws.length - 1)
    let pattern_changes := ((List.range total_comparisons).filter (fun i =>
      (analyze_draw_patterns (draws.getD i [])).endings.toFinset
        ≠ (analyze_draw_patterns (draws.getD (i + 1) [])).endings.toFinset)).length
    1 - (if 0 < total_comparisons then (pattern_changes : ℚ) / total_comparisons else 0)

/-- Embedding of _calculate_confidence, taking the probability values in
dict order as its second argument. -/
def calculate_confidence (draws : List Draw) (probValues : List ℚ) : ℚ :=
  if draws.length < 10 then 3/10
  else
    let data_confidence := min ((draws.length : ℚ) / 50) 1
    let top_probs := (probValues.insertionSort ratGE).take 10
    let prob_confidence := top_probs.sum / 1
    let pattern_confidence := calculate_pattern_consistency draws
    min (data_confidence * (4/10) + prob_confidence * (4/10)
        + pattern_confidence * (2/10)) (95/100)

/-- Model of round(x, 3) on the rational embedding of floats: scale,
round to the nearest integer, scale back.  The claims never depend on
the behavior at exact half-thousandth ties, where the Python float
round could differ. -/
def round3 (q : ℚ) : ℚ := ((round (q * 1000) : ℤ) : ℚ) / 1000

/-- Fields of the dict returned by generate_advanced_predictions that
the claims speak about. -/
structure PredictionResult where
  very_high : List Nat
  high : List Nat
  confidence : ℚ

/-- Embedding of generate_advanced_predictions.  The history returned by
get_recent_draws, the count returned by get_total_draws and the stats
mapping are explicit inputs, as are the two independent outputs of
random.sample used on the low-data path. -/
def generate_advanced_predictions (draws : List Draw) (total_draws : Nat) (stats : Stats)
    (sample4 sample10 : List Nat) : PredictionResult :=
  if total_draws < 5 then
    { very_high := sample4, high := sample10, confidence := 1/10 }
  else
    let probabilities := probability_items draws stats
    let ranked := probabilities.insertionSort scoreGE
    let very_high_numbers := (ranked.take 4).map Prod.fst
    let high_candidates := (ranked.drop 4).take 16
    let high_numbers := (high_candidates.take 10).map Prod.fst
    let confidence := calculate_confidence draws (probabilities.map Prod.snd)
    { very_high := very_high_numbers
      high := high_numbers
      confidence := round3 confidence }

/-- Spec order for rankings: strictly larger score first, ties broken by
the smaller number first. -/
def rankLT (a b : Nat × ℚ) : Prop := b.2 < a.2 ∨ (a.2 = b.2 ∧ a.1 < b.1)

/-- Modelled from the spec wording of the hot/cold factor (section 4.1):
split the history into a recent window of max(5, N div 3) most recent
draws and an older window of the remainder, then classify each number by
the windows it appears in. -/
def hotColdSpec (draws : List Draw) (n : Nat) : ℚ :=
  let recentWindow := draws.take (max 5 (draws.length / 3))
  let olderWindow := draws.drop (max 5 (draws.length / 3))
  if (∃ d ∈ recentWindow, n ∈ d) ∧ ¬ (∃ d ∈ olderWindow, n ∈ d) then 1
  else if ¬ (∃ d ∈ recentWindow, n ∈ d) ∧ (∃ d ∈ olderWindow, n ∈ d) then 3/10
  else if (∃ d ∈ recentWindow, n ∈ d) ∧ (∃ d ∈ olderWindow, n ∈ d) then 7/10
  else 1/10

/-- History of claim C8: ten identical draws, each the numbers 1..20. -/
def historyC8 : List Draw := List.replicate 10 (List.range' 1 20)

/-- Concrete all-zero statistics mapping, used as a witness input. -/
def stats0 : Stats := fun _ => (0, 0)

end Keno

namespace Keno

theorem mem_kenoNumbers {n : Nat} : n ∈ kenoNumbers ↔ 1 ≤ n ∧ n ≤ 80 := by
  rw [kenoNumbers, List.mem_range'_1]
  omega

theorem kenoNumbers_length : kenoNumbers.length = 80 := by
  simp [kenoNumbers]

theorem kenoNumbers_ne_nil : kenoNumbers ≠ [] := by decide

theorem kenoNumbers_nodup : kenoNumbers.Nodup := by decide

theorem calculate_frequency_scores_nonneg (draws : List Draw) (n : Nat) :
    0 ≤ calculate_frequency_scores draws n := by
  unfold calculate_frequency_scores
  dsimp only
  split
  · exact div_nonneg (Nat.cast_nonneg _) (Nat.cast_nonneg _)
  · norm_num

theorem recencyRawAux_nonneg (N i n : Nat) : ∀ l : List Draw, 0 ≤ recencyRawAux N i n l
  | [] => le_refl 0
  | d :: rest => by
    unfold recencyRawAux
    have h1 : (0 : ℚ) ≤ (d.count n : ℚ) * (1 + ((N - i : Nat) : ℚ) * (1/10)) := by positivity
    exact add_nonneg h1 (recencyRawAux_nonneg N (i + 1) n rest)

theorem recencyRawAux_pos (N i n : Nat) :
    ∀ l : List Draw, n ∈ l.flatten → 0 < recencyRawAux N i n l
  | d :: rest, h => by
    unfold recencyRawAux
    rw [List.flatten_cons] at h
    rcases List.mem_append.mp h with h1 | h2
    · have hc : 0 < d.count n := List.count_pos_iff.mpr h1
      have hw : (0 : ℚ) < 1 + ((N - i : Nat) : ℚ) * (1/10) := by positivity
      have : (0 : ℚ) < (d.count n : ℚ) * (1 + ((N - i : Nat) : ℚ) * (1/10)) :=
        mul_pos (by exact_mod_cast hc) hw
      exact add_pos_of_pos_of_nonneg this (recencyRawAux_nonneg N (i + 1) n rest)
    · exact add_pos_of_nonneg_of_pos (by positivity) (recencyRawAux_pos N (i + 1) n rest h2)

theorem recencyRaw_nonneg (draws : List Draw) (n : Nat) : 0 ≤ recencyRaw draws n :=
  recencyRawAux_nonneg _ _ _ _

theorem recencyRaw_pos (draws : List Draw) (n : Nat) (h : n ∈ draws.flatten) :
    0 < recencyRaw draws n :=
  recencyRawAux_pos _ _ _ _ h

theorem le_foldl_max (x : ℚ) : ∀ xs : List ℚ, x ≤ xs.foldl max x
  | [] => le_refl x
  | z :: rest => le_trans (le_max_left x z) (le_foldl_max (max x z) rest)

theorem recencyMax_pos (draws : List Draw) : 0 < recencyMax draws := by
  unfold recencyMax
  split
  · norm_num
  · next x xs heq =>
    have hx : x ∈ (draws.flatten.dedup).map (recencyRaw draws) := by
      rw [heq]; exact List.mem_cons_self x xs
    obtain ⟨m, hm, hxm⟩ := List.mem_map.mp hx
    have hmf : m ∈ draws.flatten := List.mem_dedup.mp hm
    have hpos : 0 < x := hxm ▸ recencyRaw_pos draws m hmf
    exact lt_of_lt_of_le hpos (le_foldl_max x xs)

theorem calculate_recency_scores_nonneg (draws : List Draw) (n : Nat) :
    0 ≤ calculate_recency_scores draws n := by
  unfold calculate_recency_scores
  split
  · exact div_nonneg (recencyRaw_nonneg draws n) (le_of_lt (recencyMax_pos draws))
  · exact le_refl 0

theorem calculate_hot_cold_scores_nonneg (draws : List Draw) (n : Nat) :
    0 ≤ calculate_hot_cold_scores draws n := by
  unfold calculate_hot_cold_scores
  dsimp only
  split_ifs <;> norm_num

theorem pattern_score_for_nonneg (numbers : List Nat) (m : Nat) :
    0 ≤ pattern_score_for numbers m := by
  unfold pattern_score_for
  apply le_min _ (by norm_num)
  split_ifs <;> norm_num

theorem calculate_pattern_scores_nonneg (draws : List Draw) (n : Nat) :
    0 ≤ calculate_pattern_scores draws n := by
  unfold calculate_pattern_scores
  split
  · exact le_refl 0
  · split
    · exact le_refl 0
    · exact pattern_score_for_nonneg _ _

theorem calculate_streak_scores_bounds (stats : Stats) (n : Nat) :
    1/2 ≤ calculate_streak_scores stats n ∧ calculate_streak_scores stats n ≤ 9/10 := by
  unfold calculate_streak_scores
  dsimp only
  constructor <;> split_ifs <;> norm_num

theorem combined_score_pos (draws : List Draw) (stats : Stats) (n : Nat) :
    0 < combined_score draws stats n :=
  lt_of_lt_of_le (by norm_num) (le_max_right _ _)

theorem combined_total_pos (draws : List Draw) (stats : Stats) :
    0 < combined_total draws stats := by
  unfold combined_total
  apply List.sum_pos
  · intro x hx
    obtain ⟨m, _, rfl⟩ := List.mem_map.mp hx
    exact combined_score_pos draws stats m
  · simp [kenoNumbers]

theorem calculate_advanced_probabilities_pos (draws : List Draw) (stats : Stats) (n : Nat) :
    0 < calculate_advanced_probabilities draws stats n := by
  unfold calculate_advanced_probabilities
  split
  · norm_num [get_default_probabilities]
  · exact div_pos (combined_score_pos draws stats n) (combined_total_pos draws stats)

theorem calculate_pattern_consistency_bounds (draws : List Draw) :
    0 ≤ calculate_pattern_consistency draws ∧ calculate_pattern_consistency draws ≤ 1 := by
  unfold calculate_pattern_consistency
  dsimp only
  split
  · norm_num
  · set k := min 5 (draws.length - 1) with hk
    set ch := ((List.range k).filter (fun i =>
      (analyze_draw_patterns (draws.getD i [])).endings.toFinset
        ≠ (analyze_draw_patterns (draws.getD (i + 1) [])).endings.toFinset)).length with hch
    have hle : ch ≤ k := le_trans (List.length_filter_le _ _) (le_of_eq (List.length_range k))
    split
    · next hkpos =>
      have hkq : (0 : ℚ) < k := by exact_mod_cast hkpos
      have h1 : (ch : ℚ) / k ≤ 1 := by
        rw [div_le_one hkq]
        exact_mod_cast hle
      have h0 : (0 : ℚ) ≤ (ch : ℚ) / k := by positivity
      constructor <;> linarith
    · norm_num

theorem calculate_confidence_bounds (draws : List Draw) (pv : List ℚ)
    (hpv : ∀ x ∈ pv, 0 ≤ x) :
    0 ≤ calculate_confidence draws pv ∧ calculate_confidence draws pv ≤ 95/100 := by
  unfold calculate_confidence
  dsimp only
  split
  · norm_num
  · constructor
    · apply le_min _ (by norm_num)
      have hd : (0 : ℚ) ≤ min ((draws.length : ℚ) / 50) 1 :=
        le_min (by positivity) (by norm_num)
      have hp : (0 : ℚ) ≤ ((pv.insertionSort ratGE).take 10).sum / 1 := by
        apply div_nonneg _ (by norm_num)
        apply List.sum_nonneg
        intro x hx
        have hx1 : x ∈ pv.insertionSort ratGE := List.mem_of_mem_take hx
        have hx2 : x ∈ pv := (List.mem_insertionSort ratGE).mp hx1
        exact hpv x hx2
      have hpt := calculate_pattern_consistency_bounds draws
      have := hpt.1
      positivity
    · exact min_le_right _ _

theorem round3_bounds {q : ℚ} (h0 : 0 ≤ q) (h1 : q ≤ 95/100) :
    0 ≤ round3 q ∧ round3 q ≤ 95/100 := by
  have he : round (q * 1000) = ⌊q * 1000 + 1/2⌋ := round_eq _
  have hub : ⌊q * 1000 + 1/2⌋ ≤ 950 := by
    have hmono : ⌊q * 1000 + 1/2⌋ ≤ ⌊(950 : ℚ) + 1/2⌋ := Int.floor_mono (by linarith)
    have : ⌊(950 : ℚ) + 1/2⌋ = 950 := by norm_num
    omega
  have hlb : (0 : ℤ) ≤ ⌊q * 1000 + 1/2⌋ := by
    have hge : (0 : ℚ) ≤ q * 1000 := by positivity
    have hmono : ⌊(0 : ℚ) + 1/2⌋ ≤ ⌊q * 1000 + 1/2⌋ := Int.floor_mono (by linarith)
    have : ⌊(0 : ℚ) + 1/2⌋ = 0 := by norm_num
    omega
  unfold round3
  rw [he]
  constructor
  · apply div_nonneg _ (by norm_num)
    exact_mod_cast hlb
  · rw [div_le_iff (by norm_num : (0:ℚ) < 1000)]
    calc ((⌊q * 1000 + 1/2⌋ : ℤ) : ℚ) ≤ ((950 : ℤ) : ℚ) := by exact_mod_cast hub
    _ = 95/100 * 1000 := by norm_num

/-- Fields of the result on the scored path, expressed through the
ranking. -/
theorem generate_fields (draws : List Draw) (tdc : Nat) (stats : Stats)
    (s4 s10 : List Nat) (h5 : ¬ tdc < 5) :
    (generate_advanced_predictions draws tdc stats s4 s10).very_high
      = ((sorted_probability_items draws stats).take 4).map Prod.fst ∧
    (generate_advanced_predictions draws tdc stats s4 s10).high
      = (((sorted_probability_items draws stats).drop 4).take 10).map Prod.fst ∧
    (generate_advanced_predictions draws tdc stats s4 s10).confidence
      = round3 (calculate_confidence draws ((probability_items draws stats).map Prod.snd)) := by
  unfold generate_advanced_predictions
  rw [if_neg h5]
  dsimp only
  refine ⟨rfl, ?_, rfl⟩
  have hmin : min 10 16 = 10 := by norm_num
  rw [List.take_take, hmin, sorted_probability_items]

/-- Claim C3: for every history with fewer than 3 draws and every stats
mapping, computeScores assigns the uniform value 1/80 to every number. -/
theorem claim_C3 (draws : List Draw) (stats : Stats) (n : Nat)
    (h : draws.length < 3) :
    calculate_advanced_probabilities draws stats n = 1/80 := by
  unfold calculate_advanced_probabilities
  rw [if_pos h]
  rfl

/-- Witness for claim C3 at the empty history. -/
theorem claim_C3_witness :
    ([] : List Draw).length < 3 ∧ calculate_advanced_probabilities [] stats0 7 = 1/80 :=
  ⟨by decide, claim_C3 [] stats0 7 (by decide)⟩

/-- Claim C7: the hot/cold sub-score is 0 for every number when the
history has fewer than 10 draws, and otherwise classifies every number
through the recent window of max(5, N div 3) most recent draws exactly
as the spec words it (1.0 only-recent, 0.3 only-older, 0.7 both,
0.1 neither). -/
theorem claim_C7 (draws : List Draw) (n : Nat) :
    (draws.length < 10 → calculate_hot_cold_scores draws n = 0) ∧
    (10 ≤ draws.length → calculate_hot_cold_scores draws n = hotColdSpec draws n) := by
  constructor
  · intro h
    unfold calculate_hot_cold_scores
    rw [if_pos h]
  · intro h
    have h10 : ¬ draws.length < 10 := by omega
    unfold calculate_hot_cold_scores hotColdSpec
    rw [if_neg h10]
    dsimp only
    by_cases hR : n ∈ (draws.take (max 5 (draws.length / 3))).flatten <;>
      by_cases hO : n ∈ (draws.drop (max 5 (draws.length / 3))).flatten <;>
        simp_all [List.mem_flatten]

/-- Witness for claim C7: both branches exercised at concrete
histories. -/
theorem claim_C7_witness :
    ([] : List Draw).length < 10 ∧ calculate_hot_cold_scores [] 5 = 0 ∧
    10 ≤ historyC8.length ∧ calculate_hot_cold_scores historyC8 5 = hotColdSpec historyC8 5 :=
  ⟨by decide, (claim_C7 [] 5).1 (by decide), by decide, (claim_C7 historyC8 5).2 (by decide)⟩

/-- Claim C6: with totalDrawCount at least 5 and a history of fewer than
10 draws, generatePrediction returns confidence exactly 0.3. -/
theorem claim_C6 (draws : List Draw) (stats : Stats) (tdc : Nat) (s4 s10 : List Nat)
    (h5 : 5 ≤ tdc) (h10 : draws.length < 10) :
    (generate_advanced_predictions draws tdc stats s4 s10).confidence = 3/10 := by
  have hcc : calculate_confidence draws ((probability_items draws stats).map Prod.snd)
      = 3/10 := by
    unfold calculate_confidence
    rw [if_pos h10]
  rw [(generate_fields draws tdc stats s4 s10 (by omega)).2.2, hcc]
  have h : ((3:ℚ)/10 * 1000) = ((300:ℤ):ℚ) := by norm_num
  unfold round3
  rw [h, round_intCast]
  norm_num

/-- Witness for claim C6 at the empty history with count 5. -/
theorem claim_C6_witness :
    5 ≤ 5 ∧ ([] : List Draw).length < 10 ∧
    (generate_advanced_predictions [] 5 stats0 [] []).confidence = 3/10 :=
  ⟨by decide, by decide, claim_C6 [] stats0 5 [] [] (by decide) (by decide)⟩

/-- Claim C5: for every input the confidence returned by
generatePrediction lies between 0 and 0.95, on all three paths. -/
theorem claim_C5 (draws : List Draw) (stats : Stats) (tdc : Nat) (s4 s10 : List Nat) :
    0 ≤ (generate_advanced_predictions draws tdc stats s4 s10).confidence ∧
    (generate_advanced_predictions draws tdc stats s4 s10).confidence ≤ 95/100 := by
  by_cases h : tdc < 5
  · unfold generate_advanced_predictions
    rw [if_pos h]
    norm_num
  · rw [(generate_fields draws tdc stats s4 s10 h).2.2]
    have hpv : ∀ x ∈ (probability_items draws stats).map Prod.snd, 0 ≤ x := by
      intro x hx
      obtain ⟨p, hp, rfl⟩ := List.mem_map.mp hx
      obtain ⟨m, _, rfl⟩ := List.mem_map.mp hp
      exact le_of_lt (calculate_advanced_probabilities_pos draws stats m)
    have hb := calculate_confidence_bounds draws
      ((probability_items draws stats).map Prod.snd) hpv
    exact round3_bounds hb.1 hb.2

/-- Claim C2: for every history of valid draws and every stats mapping,
computeScores returns exactly 80 entries, every value strictly positive,
and the values sum to exactly 1 (hence within the 1e-9 tolerance). -/
theorem claim_C2 (draws : List Draw) (stats : Stats) (hv : ValidHistory draws) :
    (probability_items draws stats).length = 80 ∧
    (∀ p ∈ probability_items draws stats, 0 < p.2) ∧
    ((probability_items draws stats).map Prod.snd).sum = 1 := by
  refine ⟨by simp [probability_items, kenoNumbers], ?_, ?_⟩
  · intro p hp
    obtain ⟨m, _, rfl⟩ := List.mem_map.mp hp
    exact calculate_advanced_probabilities_pos draws stats m
  · rw [probability_items, List.map_map]
    have hcomp : (Prod.snd ∘ fun n => (n, calculate_advanced_probabilities draws stats n))
        = fun n => calculate_advanced_probabilities draws stats n := rfl
    rw [hcomp]
    by_cases h3 : draws.length < 3
    · have hconst : (fun n => calculate_advanced_probabilities draws stats n)
          = fun _ => (1:ℚ)/80 := by
        funext n
        unfold calculate_advanced_probabilities
        rw [if_pos h3]
        rfl
      rw [hconst, List.map_const', List.sum_replicate, kenoNumbers_length, nsmul_eq_mul]
      norm_num
    · have heq : (fun n => calculate_advanced_probabilities draws stats n)
          = fun n => combined_score draws stats n * (combined_total draws stats)⁻¹ := by
        funext n
        unfold calculate_advanced_probabilities
        rw [if_neg h3, div_eq_mul_inv]
      rw [heq, List.sum_map_mul_right]
      have hT : (kenoNumbers.map (fun n => combined_score draws stats n)).sum
          = combined_total draws stats := rfl
      rw [hT, mul_inv_cancel₀ (ne_of_gt (combined_total_pos draws stats))]

/-- Witness for claim C2 at a concrete valid three-draw history. -/
theorem claim_C2_witness :
    ValidHistory [List.range' 1 20, List.range' 21 20, List.range' 41 20] ∧
    ((probability_items [List.range' 1 20, List.range' 21 20, List.range' 41 20] stats0).map
      Prod.snd).sum = 1 :=
  ⟨by decide,
   (claim_C2 [List.range' 1 20, List.range' 21 20, List.range' 41 20] stats0 (by decide)).2.2⟩

theorem pairwise_rankLT_orderedInsert (a : Nat × ℚ) :
    ∀ L : List (Nat × ℚ), L.Pairwise rankLT → (∀ b ∈ L, a.1 < b.1) →
      (List.orderedInsert scoreGE a L).Pairwise rankLT
  | [], _, _ => by simp [List.orderedInsert]
  | b :: L, hL, ha => by
    simp only [List.orderedInsert]
    split
    · next hab =>
      refine List.Pairwise.cons ?_ hL
      intro c hc
      have hc2 : c.2 ≤ a.2 := by
        rcases List.mem_cons.mp hc with rfl | hcL
        · exact hab
        · rcases List.rel_of_pairwise_cons hL hcL with hlt | ⟨heq, _⟩
          · exact le_trans (le_of_lt hlt) hab
          · exact le_trans (le_of_eq heq.symm) hab
      rcases lt_or_eq_of_le hc2 with hlt | heq
      · exact Or.inl hlt
      · exact Or.inr ⟨heq.symm, ha c hc⟩
    · next hab =>
      have hba : a.2 < b.2 := not_le.mp hab
      refine List.Pairwise.cons ?_ (pairwise_rankLT_orderedInsert a L
        (List.Pairwise.of_cons hL) (fun c hc => ha c (List.mem_cons_of_mem b hc)))
      intro c hc
      rcases (List.mem_orderedInsert scoreGE).mp hc with rfl | hcL
      · exact Or.inl hba
      · exact List.rel_of_pairwise_cons hL hcL

theorem insertionSort_pairwise_rankLT :
    ∀ l : List (Nat × ℚ), l.Pairwise (fun a b => a.1 < b.1) →
      (l.insertionSort scoreGE).Pairwise rankLT
  | [], _ => by simp [List.insertionSort]
  | a :: l, h => by
    simp only [List.insertionSort]
    apply pairwise_rankLT_orderedInsert
    · exact insertionSort_pairwise_rankLT l (List.Pairwise.of_cons h)
    · intro b hb
      exact List.rel_of_pairwise_cons h ((List.mem_insertionSort scoreGE).mp hb)

theorem probability_items_pairwise_fst (draws : List Draw) (stats : Stats) :
    (probability_items draws stats).Pairwise (fun a b => a.1 < b.1) := by
  rw [probability_items]
  have h0 : kenoNumbers.Pairwise (· < ·) := by decide
  exact List.Pairwise.map _ (fun a b hab => hab) h0

theorem sorted_probability_items_pairwise (draws : List Draw) (stats : Stats) :
    (sorted_probability_items draws stats).Pairwise rankLT := by
  rw [sorted_probability_items]
  exact insertionSort_pairwise_rankLT _ (probability_items_pairwise_fst draws stats)

theorem sorted_probability_items_length (draws : List Draw) (stats : Stats) :
    (sorted_probability_items draws stats).length = 80 := by
  rw [sorted_probability_items, List.length_insertionSort]
  simp [probability_items, kenoNumbers]

/-- Claim C4: for totalDrawCount at least 5 the engine ranks the 80
numbers by descending score with ties broken by ascending numeric value
(the ranking is a permutation of the score items that is pairwise in the
rankLT order), very_high is exactly the 4 top-ranked numbers and high is
exactly the numbers ranked 5 through 14, in rank order. -/
theorem claim_C4 (draws : List Draw) (stats : Stats) (tdc : Nat) (s4 s10 : List Nat)
    (h5 : 5 ≤ tdc) :
    (sorted_probability_items draws stats).Perm (probability_items draws stats) ∧
    (sorted_probability_items draws stats).Pairwise rankLT ∧
    (generate_advanced_predictions draws tdc stats s4 s10).very_high
      = ((sorted_probability_items draws stats).take 4).map Prod.fst ∧
    (generate_advanced_predictions draws tdc stats s4 s10).high
      = (((sorted_probability_items draws stats).drop 4).take 10).map Prod.fst := by
  have hf := generate_fields draws tdc stats s4 s10 (by omega)
  exact ⟨List.perm_insertionSort scoreGE _, sorted_probability_items_pairwise draws stats,
    hf.1, hf.2.1⟩

/-- Witness for claim C4 at the empty history with count 5. -/
theorem claim_C4_witness :
    5 ≤ 5 ∧
    ((sorted_probability_items [] stats0).Perm (probability_items [] stats0) ∧
     (sorted_probability_items [] stats0).Pairwise rankLT ∧
     (generate_advanced_predictions [] 5 stats0 [] []).very_high
       = ((sorted_probability_items [] stats0).take 4).map Prod.fst ∧
     (generate_advanced_predictions [] 5 stats0 [] []).high
       = (((sorted_probability_items [] stats0).drop 4).take 10).map Prod.fst) :=
  ⟨by decide, claim_C4 [] stats0 5 [] [] (by decide)⟩

theorem map_fst_probability_items (draws : List Draw) (stats : Stats) :
    (probability_items draws stats).map Prod.fst = kenoNumbers := by
  rw [probability_items, List.map_map]
  have hcomp : (Prod.fst ∘ fun n => (n, calculate_advanced_probabilities draws stats n))
      = id := rfl
  rw [hcomp, List.map_id]

theorem map_fst_sorted_perm (draws : List Draw) (stats : Stats) :
    ((sorted_probability_items draws stats).map Prod.fst).Perm kenoNumbers := by
  have h1 : (sorted_probability_items draws stats).Perm (probability_items draws stats) :=
    List.perm_insertionSort scoreGE _
  have h2 := h1.map Prod.fst
  rwa [map_fst_probability_items draws stats] at h2

/-- Claim C10: on the scored path the very_high list (4 numbers) and the
high list (10 numbers) are disjoint, 14 distinct numbers in [1, 80],
because they are consecutive slices of one ranking of the 80 keys. -/
theorem claim_C10 (draws : List Draw) (stats : Stats) (tdc : Nat) (s4 s10 : List Nat)
    (h5 : 5 ≤ tdc) :
    ((generate_advanced_predictions draws tdc stats s4 s10).very_high
      ++ (generate_advanced_predictions draws tdc stats s4 s10).high).Nodup ∧
    (generate_advanced_predictions draws tdc stats s4 s10).very_high.length = 4 ∧
    (generate_advanced_predictions draws tdc stats s4 s10).high.length = 10 ∧
    (∀ x ∈ (generate_advanced_predictions draws tdc stats s4 s10).very_high
        ++ (generate_advanced_predictions draws tdc stats s4 s10).high,
      1 ≤ x ∧ x ≤ 80) := by
  have hf := generate_fields draws tdc stats s4 s10 (by omega)
  have hRlen := sorted_probability_items_length draws stats
  have hperm := map_fst_sorted_perm draws stats
  have hnd : ((sorted_probability_items draws stats).map Prod.fst).Nodup :=
    hperm.nodup_iff.mpr kenoNumbers_nodup
  have happ : (generate_advanced_predictions draws tdc stats s4 s10).very_high
      ++ (generate_advanced_predictions draws tdc stats s4 s10).high
      = ((sorted_probability_items draws stats).take 14).map Prod.fst := by
    rw [hf.1, hf.2.1, ← List.map_append]
    rw [show (14 : Nat) = 4 + 10 from rfl, List.take_add]
  refine ⟨?_, ?_, ?_, ?_⟩
  · rw [happ, List.map_take]
    exact hnd.sublist (List.take_sublist 14 _)
  · rw [hf.1]
    simp [List.length_take, hRlen]
  · rw [hf.2.1]
    simp [List.length_take, List.length_drop, hRlen]
  · intro x hx
    rw [happ] at hx
    obtain ⟨p, hp, rfl⟩ := List.mem_map.mp hx
    have hpR : p ∈ sorted_probability_items draws stats := List.mem_of_mem_take hp
    have : p.1 ∈ (sorted_probability_items draws stats).map Prod.fst :=
      List.mem_map_of_mem Prod.fst hpR
    exact mem_kenoNumbers.mp (hperm.mem_iff.mp this)

/-- Witness for claim C10 at the empty history with count 6. -/
theorem claim_C10_witness :
    5 ≤ 6 ∧
    (((generate_advanced_predictions [] 6 stats0 [] []).very_high
       ++ (generate_advanced_predictions [] 6 stats0 [] []).high).Nodup ∧
     (generate_advanced_predictions [] 6 stats0 [] []).very_high.length = 4 ∧
     (generate_advanced_predictions [] 6 stats0 [] []).high.length = 10 ∧
     (∀ x ∈ (generate_advanced_predictions [] 6 stats0 [] []).very_high
        ++ (generate_advanced_predictions [] 6 stats0 [] []).high,
       1 ≤ x ∧ x ≤ 80)) :=
  ⟨by decide, claim_C10 [] stats0 6 [] [] (by decide)⟩

/-- Counterexample to claim C1 as stated: the two random samples are
drawn independently, so a pair of legal sample outputs can overlap; at
this concrete pair the 14 returned numbers are not distinct. -/
theorem claim_C1_counterexample :
    isSample 4 [1, 2, 3, 4] ∧ isSample 10 [1, 2, 3, 4, 5, 6, 7, 8, 9, 10] ∧ (0 : Nat) < 5 ∧
    ¬ ((generate_advanced_predictions [] 0 stats0 [1, 2, 3, 4]
          [1, 2, 3, 4, 5, 6, 7, 8, 9, 10]).very_high
        ++ (generate_advanced_predictions [] 0 stats0 [1, 2, 3, 4]
          [1, 2, 3, 4, 5, 6, 7, 8, 9, 10]).high).Nodup := by
  refine ⟨by decide, by decide, by decide, ?_⟩
  intro hnd
  have h1 : (1 : Nat) ∈ (generate_advanced_predictions [] 0 stats0 [1, 2, 3, 4]
      [1, 2, 3, 4, 5, 6, 7, 8, 9, 10]).very_high := by
    show (1 : Nat) ∈ [1, 2, 3, 4]
    decide
  have h2 : (1 : Nat) ∈ (generate_advanced_predictions [] 0 stats0 [1, 2, 3, 4]
      [1, 2, 3, 4, 5, 6, 7, 8, 9, 10]).high := by
    show (1 : Nat) ∈ [1, 2, 3, 4, 5, 6, 7, 8, 9, 10]
    decide
  exact List.disjoint_of_nodup_append hnd h1 h2

/-- Claim C1 as amended: with totalDrawCount below 5 the result carries
4 distinct numbers in [1, 80] as very_high and 10 distinct numbers in
[1, 80] as high, with confidence exactly 0.1; the two independently
sampled lists may overlap each other. -/
theorem claim_C1_amended (draws : List Draw) (tdc : Nat) (stats : Stats)
    (s4 s10 : List Nat) (h : tdc < 5) (hs4 : isSample 4 s4) (hs10 : isSample 10 s10) :
    (generate_advanced_predictions draws tdc stats s4 s10).very_high.length = 4 ∧
    (generate_advanced_predictions draws tdc stats s4 s10).very_high.Nodup ∧
    (∀ x ∈ (generate_advanced_predictions draws tdc stats s4 s10).very_high,
      1 ≤ x ∧ x ≤ 80) ∧
    (generate_advanced_predictions draws tdc stats s4 s10).high.length = 10 ∧
    (generate_advanced_predictions draws tdc stats s4 s10).high.Nodup ∧
    (∀ x ∈ (generate_advanced_predictions draws tdc stats s4 s10).high,
      1 ≤ x ∧ x ≤ 80) ∧
    (generate_advanced_predictions draws tdc stats s4 s10).confidence = 1/10 := by
  obtain ⟨l4, n4, m4⟩ := hs4
  obtain ⟨l10, n10, m10⟩ := hs10
  unfold generate_advanced_predictions
  rw [if_pos h]
  exact ⟨l4, n4, fun x hx => mem_kenoNumbers.mp (m4 x hx),
    l10, n10, fun x hx => mem_kenoNumbers.mp (m10 x hx), rfl⟩

/-- Witness for the amended claim C1 at concrete samples. -/
theorem claim_C1_amended_witness :
    (0 : Nat) < 5 ∧ isSample 4 [11, 12, 13, 14] ∧
    isSample 10 [1, 2, 3, 4, 5, 6, 7, 8, 9, 10] ∧
    (generate_advanced_predictions [] 0 stats0 [11, 12, 13, 14]
      [1, 2, 3, 4, 5, 6, 7, 8, 9, 10]).confidence = 1/10 :=
  ⟨by decide, by decide, by decide,
   (claim_C1_amended [] 0 stats0 [11, 12, 13, 14] [1, 2, 3, 4, 5, 6, 7, 8, 9, 10]
     (by decide) (by decide) (by decide)).2.2.2.2.2.2⟩

/-- Claim C9: on valid-shaped input the engine never divides by zero and
always produces a complete result: the score vector has all 80 entries,
the normalization total and the recency maximum are strictly positive,
every draw length is positive, and both prediction lists always have
their full 4 and 10 elements. -/
theorem claim_C9 (draws : List Draw) (stats : Stats) (hv : ValidHistory draws) :
    (probability_items draws stats).length = 80 ∧
    0 < combined_total draws stats ∧
    0 < recencyMax draws ∧
    (∀ d ∈ draws, 0 < d.length) ∧
    (∀ tdc s4 s10, isSample 4 s4 → isSample 10 s10 →
      (generate_advanced_predictions draws tdc stats s4 s10).very_high.length = 4 ∧
      (generate_advanced_predictions draws tdc stats s4 s10).high.length = 10) := by
  refine ⟨by simp [probability_items, kenoNumbers], combined_total_pos draws stats,
    recencyMax_pos draws, ?_, ?_⟩
  · intro d hd
    have := (hv d hd).1
    omega
  · intro tdc s4 s10 hs4 hs10
    by_cases h : tdc < 5
    · unfold generate_advanced_predictions
      rw [if_pos h]
      exact ⟨hs4.1, hs10.1⟩
    · have hf := generate_fields draws tdc stats s4 s10 h
      have hRlen := sorted_probability_items_length draws stats
      constructor
      · rw [hf.1]
        simp [List.length_take, hRlen]
      · rw [hf.2.1]
        simp [List.length_take, List.length_drop, hRlen]

/-- Witness for claim C9 at the concrete ten-draw history. -/
theorem claim_C9_witness :
    ValidHistory historyC8 ∧ 0 < recencyMax historyC8 :=
  ⟨by decide, (claim_C9 historyC8 stats0 (by decide)).2.2.1⟩

theorem freq_historyC8_high :
    ∀ n ∈ List.range' 1 20, calculate_frequency_scores historyC8 n = 1 := by
  intro n hn
  have hsum : (historyC8.map (fun d => d.count n)).sum = 10 := by
    revert n hn
    decide
  unfold calculate_frequency_scores
  dsimp only
  rw [if_pos (by decide : 0 < historyC8.length), hsum,
    show historyC8.length = 10 from rfl]
  norm_num

theorem freq_historyC8_low :
    ∀ m ∈ List.range' 21 60, calculate_frequency_scores historyC8 m = 0 := by
  intro m hm
  have hsum : (historyC8.map (fun d => d.count m)).sum = 0 := by
    revert m hm
    decide
  unfold calculate_frequency_scores
  dsimp only
  rw [if_pos (by decide : 0 < historyC8.length), hsum]
  norm_num

theorem recencyRaw_historyC8 :
    ∀ n ∈ List.range' 1 20, recencyRaw historyC8 n = 31/2 := by
  intro n hn
  have hc : (List.range' 1 20).count n = 1 := by
    revert n hn
    decide
  have hrep : historyC8 = [List.range' 1 20, List.range' 1 20, List.range' 1 20,
      List.range' 1 20, List.range' 1 20, List.range' 1 20, List.range' 1 20,
      List.range' 1 20, List.range' 1 20, List.range' 1 20] := rfl
  unfold recencyRaw
  rw [show historyC8.length = 10 from rfl, hrep]
  simp only [recencyRawAux]
  rw [hc]
  norm_num

theorem foldl_max_replicate : ∀ (k : Nat) (c : ℚ), (List.replicate k c).foldl max c = c
  | 0, _ => rfl
  | k + 1, c => by
    rw [List.replicate_succ, List.foldl_cons, max_self]
    exact foldl_max_replicate k c

set_option maxRecDepth 4000 in
theorem recencyMax_historyC8 : recencyMax historyC8 = 31/2 := by
  unfold recencyMax
  have h6 : historyC8.flatten.dedup = List.range' 1 20 := by decide
  rw [h6]
  have hmap : (List.range' 1 20).map (recencyRaw historyC8)
      = List.replicate 20 ((31 : ℚ)/2) := by
    rw [List.map_congr_left recencyRaw_historyC8, List.map_const',
      show (List.range' 1 20).length = 20 from rfl]
  rw [hmap, show List.replicate 20 ((31 : ℚ)/2) = ((31 : ℚ)/2) :: List.replicate 19 ((31 : ℚ)/2)
    from rfl]
  exact foldl_max_replicate 19 _

theorem rec_historyC8_high :
    ∀ n ∈ List.range' 1 20, calculate_recency_scores historyC8 n = 1 := by
  intro n hn
  have hmem : n ∈ historyC8.flatten := by
    revert n hn
    decide
  unfold calculate_recency_scores
  rw [if_pos hmem, recencyRaw_historyC8 n hn, recencyMax_historyC8]
  norm_num

theorem rec_historyC8_low :
    ∀ m ∈ List.range' 21 60, calculate_recency_scores historyC8 m = 0 := by
  intro m hm
  have hmem : m ∉ historyC8.flatten := by
    revert m hm
    decide
  unfold calculate_recency_scores
  rw [if_neg hmem]

theorem hc_historyC8_high :
    ∀ n ∈ List.range' 1 20, calculate_hot_cold_scores historyC8 n = 7/10 := by
  intro n hn
  have hR : n ∈ (historyC8.take 5).flatten := by
    revert n hn
    decide
  have hO : n ∈ (historyC8.drop 5).flatten := by
    revert n hn
    decide
  unfold calculate_hot_cold_scores
  dsimp only
  rw [if_neg (by decide : ¬ historyC8.length < 10),
    show max 5 (historyC8.length / 3) = 5 from rfl,
    if_neg (fun h => h.2 hO), if_neg (fun h => h.1 hR), if_pos hR]

theorem hc_historyC8_low :
    ∀ m ∈ List.range' 21 60, calculate_hot_cold_scores historyC8 m = 1/10 := by
  intro m hm
  have hR : m ∉ (historyC8.take 5).flatten := by
    revert m hm
    decide
  have hO : m ∉ (historyC8.drop 5).flatten := by
    revert m hm
    decide
  unfold calculate_hot_cold_scores
  dsimp only
  rw [if_neg (by decide : ¬ historyC8.length < 10),
    show max 5 (historyC8.length / 3) = 5 from rfl,
    if_neg (fun h => hR h.1), if_neg (fun h => hO h.2), if_neg hR]

theorem pat_historyC8_high :
    ∀ m ∈ List.range' 1 20, calculate_pattern_scores historyC8 m = 4/5 := by
  intro m hm
  have hmb : 1 ≤ m ∧ m ≤ 20 := by
    rw [List.mem_range'_1] at hm
    omega
  have he : m % 10 ∈ (List.range' 1 20).map (fun n => n % 10) := by
    revert m hm
    decide
  have hd : (m - 1) / 10 ∈ (List.range' 1 20).map (fun n => (n - 1) / 10) := by
    revert m hm
    decide
  show pattern_score_for (List.range' 1 20) m = 4/5
  unfold pattern_score_for analyze_draw_patterns
  dsimp only
  rw [if_pos he, if_pos hd,
    show ((List.range' 1 20).filter (fun n => n ≤ 40)).length = 20 from by decide,
    show ((List.range' 1 20).filter (fun n => n % 2 = 0)).length = 10 from by decide,
    show (List.range' 1 20).length = 20 from rfl]
  rw [if_pos (⟨hmb.2.trans (by norm_num), by norm_num⟩ : m ≤ 40 ∧ (1:ℚ)/2 < (20:ℕ)/(20:ℕ))]
  rw [if_neg (fun h => by norm_num at h : ¬ (m % 2 = 0 ∧ (1:ℚ)/2 < (10:ℕ)/(20:ℕ)))]
  rw [if_neg (fun h => by norm_num at h : ¬ (m % 2 = 1 ∧ ((10:ℕ):ℚ)/(20:ℕ) < 1/2))]
  norm_num

theorem pat_historyC8_low :
    ∀ m ∈ List.range' 21 60, calculate_pattern_scores historyC8 m ≤ 1/2 := by
  intro m hm
  have he : m % 10 ∈ (List.range' 1 20).map (fun n => n % 10) := by
    revert m hm
    decide
  have hd : (m - 1) / 10 ∉ (List.range' 1 20).map (fun n => (n - 1) / 10) := by
    revert m hm
    decide
  show pattern_score_for (List.range' 1 20) m ≤ 1/2
  unfold pattern_score_for analyze_draw_patterns
  dsimp only
  rw [if_pos he, if_neg hd,
    show ((List.range' 1 20).filter (fun n => n ≤ 40)).length = 20 from by decide,
    show ((List.range' 1 20).filter (fun n => n % 2 = 0)).length = 10 from by decide,
    show (List.range' 1 20).length = 20 from rfl]
  rw [if_neg (fun h => by norm_num at h : ¬ (m % 2 = 0 ∧ (1:ℚ)/2 < (10:ℕ)/(20:ℕ)))]
  rw [if_neg (fun h => by norm_num at h : ¬ (m % 2 = 1 ∧ ((10:ℕ):ℚ)/(20:ℕ) < 1/2))]
  refine le_trans (min_le_left _ _) ?_
  split_ifs <;> norm_num

theorem combined_historyC8_high (stats : Stats) :
    ∀ n ∈ List.range' 1 20, 43/50 ≤ combined_score historyC8 stats n := by
  intro n hn
  unfold combined_score
  rw [freq_historyC8_high n hn, rec_historyC8_high n hn, hc_historyC8_high n hn,
    pat_historyC8_high n hn]
  have hs := (calculate_streak_scores_bounds stats n).1
  refine le_trans ?_ (le_max_left _ _)
  linarith

theorem combined_historyC8_low (stats : Stats) :
    ∀ m ∈ List.range' 21 60, combined_score historyC8 stats m ≤ 37/200 := by
  intro m hm
  unfold combined_score
  rw [freq_historyC8_low m hm, rec_historyC8_low m hm, hc_historyC8_low m hm]
  have hp := pat_historyC8_low m hm
  have hs := (calculate_streak_scores_bounds stats m).2
  apply max_le
  · linarith
  · norm_num

theorem prob_separation_historyC8 (stats : Stats) {n m : Nat}
    (hn : n ∈ List.range' 1 20) (hm : m ∈ List.range' 21 60) :
    calculate_advanced_probabilities historyC8 stats m
      < calculate_advanced_probabilities historyC8 stats n := by
  unfold calculate_advanced_probabilities
  simp only [if_neg (show ¬ historyC8.length < 3 by decide)]
  apply div_lt_div_of_pos_right _ (combined_total_pos historyC8 stats)
  calc combined_score historyC8 stats m ≤ 37/200 := combined_historyC8_low stats m hm
    _ < 43/50 := by norm_num
    _ ≤ combined_score historyC8 stats n := combined_historyC8_high stats n hn

theorem take_all_of_filter_length (P : Nat × ℚ → Bool) :
    ∀ (l : List (Nat × ℚ)) (k : Nat), l.Pairwise rankLT →
      (∀ a ∈ l, ∀ b ∈ l, P a = true → P b = false → b.2 < a.2) →
      k ≤ (l.filter P).length → ∀ x ∈ l.take k, P x = true
  | _, 0, _, _, _ => by simp
  | [], _ + 1, _, _, _ => by simp
  | c :: t, k + 1, hp, hsep, hk => by
    by_cases hc : P c = true
    · intro x hx
      rw [List.take_succ_cons] at hx
      rcases List.mem_cons.mp hx with rfl | hxt
      · exact hc
      · have hk' : k ≤ (t.filter P).length := by
          rw [List.filter_cons_of_pos hc] at hk
          simpa using hk
        exact take_all_of_filter_length P t k (List.Pairwise.of_cons hp)
          (fun a ha b hb => hsep a (List.mem_cons_of_mem c ha) b (List.mem_cons_of_mem c hb))
          hk' x hxt
    · exfalso
      have hcf : P c = false := by
        rw [Bool.not_eq_true] at hc
        exact hc
      have hlen : 0 < (t.filter P).length := by
        rw [List.filter_cons_of_neg (by rw [hcf]; exact Bool.false_ne_true)] at hk
        omega
      obtain ⟨a, ha⟩ := List.exists_mem_of_length_pos hlen
      have hat := List.mem_filter.mp ha
      have hlt := hsep a (List.mem_cons_of_mem c hat.1) c (List.mem_cons_self c t)
        hat.2 hcf
      rcases List.rel_of_pairwise_cons hp hat.1 with h | ⟨h, _⟩
      · exact absurd hlt (lt_asymm h)
      · exact absurd (h ▸ hlt) (lt_irrefl _)

theorem filter_length_historyC8 (stats : Stats) :
    14 ≤ ((sorted_probability_items historyC8 stats).filter
      (fun q => q.1 ≤ 20)).length := by
  have hperm : (sorted_probability_items historyC8 stats).Perm
      (probability_items historyC8 stats) := List.perm_insertionSort scoreGE _
  rw [(hperm.filter (fun q => q.1 ≤ 20)).length_eq, probability_items, List.filter_map,
    List.length_map]
  have heq : (kenoNumbers.filter ((fun q : Nat × ℚ => decide (q.1 ≤ 20))
      ∘ (fun n => (n, calculate_advanced_probabilities historyC8 stats n))))
      = kenoNumbers.filter (fun n => decide (n ≤ 20)) :=
    List.filter_congr (fun n _ => rfl)
  rw [heq, show (kenoNumbers.filter (fun n => decide (n ≤ 20))).length = 20 from by decide]
  norm_num

/-- Claim C8: for the history of 10 identical draws 1..20, the frequency
sub-score is 1 on 1..20 and 0 on 21..80 before flooring, and for every
stats mapping the very_high and high lists contain only numbers of
1..20. -/
theorem claim_C8 :
    (∀ n ∈ List.range' 1 20, calculate_frequency_scores historyC8 n = 1) ∧
    (∀ m ∈ List.range' 21 60, calculate_frequency_scores historyC8 m = 0) ∧
    (∀ (stats : Stats) (tdc : Nat) (s4 s10 : List Nat), 5 ≤ tdc →
      ∀ x ∈ (generate_advanced_predictions historyC8 tdc stats s4 s10).very_high
          ++ (generate_advanced_predictions historyC8 tdc stats s4 s10).high,
        1 ≤ x ∧ x ≤ 20) := by
  refine ⟨freq_historyC8_high, freq_historyC8_low, ?_⟩
  intro stats tdc s4 s10 h5 x hx
  have hf := generate_fields historyC8 tdc stats s4 s10 (by omega)
  have happ : (generate_advanced_predictions historyC8 tdc stats s4 s10).very_high
      ++ (generate_advanced_predictions historyC8 tdc stats s4 s10).high
      = ((sorted_probability_items historyC8 stats).take 14).map Prod.fst := by
    rw [hf.1, hf.2.1, ← List.map_append]
    rw [show (14 : Nat) = 4 + 10 from rfl, List.take_add]
  rw [happ] at hx
  obtain ⟨p, hp, rfl⟩ := List.mem_map.mp hx
  have hRperm : (sorted_probability_items historyC8 stats).Perm
      (probability_items historyC8 stats) := List.perm_insertionSort scoreGE _
  have hsep : ∀ a ∈ sorted_probability_items historyC8 stats,
      ∀ b ∈ sorted_probability_items historyC8 stats,
      (fun q : Nat × ℚ => decide (q.1 ≤ 20)) a = true →
      (fun q : Nat × ℚ => decide (q.1 ≤ 20)) b = false → b.2 < a.2 := by
    intro a ha b hb hpa hpb
    obtain ⟨na, hna, rfl⟩ := List.mem_map.mp (hRperm.mem_iff.mp ha)
    obtain ⟨nb, hnb, rfl⟩ := List.mem_map.mp (hRperm.mem_iff.mp hb)
    have hna2 : na ≤ 20 := of_decide_eq_true hpa
    have hnb2 : ¬ nb ≤ 20 := of_decide_eq_false hpb
    rw [mem_kenoNumbers] at hna hnb
    exact prob_separation_historyC8 stats
      (by rw [List.mem_range'_1]; omega) (by rw [List.mem_range'_1]; omega)
  have hP := take_all_of_filter_length (fun q : Nat × ℚ => decide (q.1 ≤ 20))
    (sorted_probability_items historyC8 stats) 14
    (sorted_probability_items_pairwise historyC8 stats) hsep
    (filter_length_historyC8 stats) p hp
  constructor
  · have hpR : p ∈ sorted_probability_items historyC8 stats := List.mem_of_mem_take hp
    have h1 : p.1 ∈ (sorted_probability_items historyC8 stats).map Prod.fst :=
      List.mem_map_of_mem Prod.fst hpR
    have h2 := (map_fst_sorted_perm historyC8 stats).mem_iff.mp h1
    exact (mem_kenoNumbers.mp h2).1
  · exact of_decide_eq_true hP

/-- Witness for claim C8 with the all-zero stats mapping and count 10. -/
theorem claim_C8_witness :
    5 ≤ 10 ∧
    (∀ x ∈ (generate_advanced_predictions historyC8 10 stats0 [] []).very_high
        ++ (generate_advanced_predictions historyC8 10 stats0 [] []).high,
      1 ≤ x ∧ x ≤ 20) :=
  ⟨by decide, claim_C8.2.2 stats0 10 [] [] (by decide)⟩

end Keno
